import Mathlib

/-!
Shallow embedding of the session-and-authentication core of smolboard
(package `db`: session entity, store lookup/renew, insertion with expiry
sweep, signin/signup orchestration, session-scoped deletion, token
generation).

Modelling conventions:
  * the SQL `sessions` table is a `List Session`; the `users` table is a
    list of `(username, passhash)` pairs; invite tokens are a list of
    `(token, remaining uses)` pairs;
  * every call to `time.Now()` in the Go source becomes an explicit `Int`
    parameter (nanosecond epoch), one parameter per textual call site;
  * `crypto/rand.Read` becomes an explicit entropy oracle
    `randRead : Nat → Except String (List Nat)`, mapping a requested byte
    count to either the bytes read or an error;
  * a function running inside an open transaction threads the table state;
    an orchestrator (`Signin`, `Signup`) returns the committed state only
    on success — on error the transaction is rolled back (`defer
    t.Rollback()`), so the caller keeps the original state;
  * the possible failure of the sweep's DELETE statement is injected as an
    `Option String` parameter (`none` = the statement succeeds).
-/

namespace Smolboard

/-- The `Session` record: one authenticated device/user pairing.
Field-for-field image of the Go struct (`id`, `username`, `authtoken`,
`deadline` in epoch nanoseconds, `useragent`). -/
structure Session where
  ID : Int
  Username : String
  AuthToken : String
  Deadline : Int
  UserAgent : String
  deriving Repr, DecidableEq

/-- Error values of the session core.  `sessionNotFound`, `sessionExpired`
are the two `httperr` values of the source; `invalidPassword`,
`invalidToken`, `usernameTaken` are declared elsewhere in the repository
(spec section 7 names the kinds); `raw` is an underlying driver or OS
error and `wrapped` is `errors.Wrap` with its context message. -/
inductive DBErr where
  | sessionNotFound
  | sessionExpired
  | invalidPassword
  | invalidToken
  | usernameTaken
  | raw (msg : String)
  | wrapped (msg : String) (cause : DBErr)
  deriving Repr, DecidableEq

/-- `ErrSessionNotFound = httperr.New(401, "session not found")`. -/
def ErrSessionNotFound : DBErr := .sessionNotFound

/-- `ErrSessionExpired = httperr.New(410, "session expired")`. -/
def ErrSessionExpired : DBErr := .sessionExpired

/-- Modelled from the spec: `ErrInvalidPassword` is declared in another
file of the repository; spec section 7 gives the kind `InvalidPassword`
covering unknown username and wrong password. -/
def ErrInvalidPassword : DBErr := .invalidPassword

/-- Modelled from the spec: `InvalidToken` covers an invite token that is
unknown, exhausted or expired (spec section 4.4). -/
def ErrInvalidToken : DBErr := .invalidToken

/-- Modelled from the spec: `UsernameTaken` is returned on a username
uniqueness violation at signup (spec section 4.4). -/
def ErrUsernameTaken : DBErr := .usernameTaken

/-- `QuerySession` searches for a session by exact token match inside an
open transaction.  `now` is the single `time.Now()` read of the Go body.
No matching row (`sql.ErrNoRows`) yields `ErrSessionExpired`; a found row
with `now > deadline` yields `ErrSessionExpired` and leaves the table
untouched; otherwise the deadline is bumped to `now + renewTTL`, the
UPDATE persists it on every row holding this auth token, and the renewed
session is returned.  The second component is the table after the call. -/
def QuerySession (sessions : List Session) (token : String)
    (now renewTTL : Int) : Except DBErr Session × List Session :=
  match sessions.find? (fun r => r.AuthToken == token) with
  | none => (.error ErrSessionExpired, sessions)
  | some s =>
    if now > s.Deadline then
      (.error ErrSessionExpired, sessions)
    else
      let newDeadline := now + renewTTL
      (.ok { s with Deadline := newDeadline },
       sessions.map fun r =>
         if r.AuthToken == s.AuthToken then { r with Deadline := newDeadline } else r)

/-- `cleanupSession` deletes every row whose `deadline < ?`.  The Go
function receives a `now` argument but does not use it: the DELETE's
parameter is a fresh `time.Now().UnixNano()` read, modelled as `clockNow`.
`execErr` injects a possible failure of the DELETE statement, which the
function wraps (with the source's misspelt context message) and returns. -/
def cleanupSession (execErr : Option String) (sessions : List Session)
    (now clockNow : Int) : Except DBErr (List Session) :=
  match execErr with
  | some e => .error (.wrapped "Faield to cleanup expired sessions" (.raw e))
  | none => .ok (sessions.filter fun r => !(r.Deadline < clockNow))

/-- `(*Session).insert` runs `INSERT INTO sessions VALUES (…)` and then,
in the same transaction, `cleanupSession(tx, time.Now().UnixNano())`.
The INSERT's unique constraints on `id` and `authtoken` (spec sections 4.3
and 6; the schema lives outside this file's source) reject a colliding
row.  `now1` is the clock read insert passes to the sweeper, `clockNow2`
the sweeper's own internal read. -/
def Session.insert (s : Session) (sessions : List Session)
    (sweepErr : Option String) (now1 clockNow2 : Int) :
    Except DBErr (List Session) :=
  if sessions.any (fun r => r.ID == s.ID || r.AuthToken == s.AuthToken) then
    .error (.wrapped "Failed to save session" (.raw "UNIQUE constraint failed"))
  else
    cleanupSession sweepErr (sessions ++ [s]) now1 clockNow2

/-- The URL-safe base64 alphabet of `base64.RawURLEncoding`. -/
def b64urlAlphabet : List Char :=
  "ABCDEFGHIJKLMNOPQRSTUVWXYZabcdefghijklmnopqrstuvwxyz0123456789-_".toList

/-- Digit `n` of the URL-safe base64 alphabet. -/
def b64Char (n : Nat) : Char := b64urlAlphabet.getD n 'A'

/-- `base64.RawURLEncoding.EncodeToString`: 6-bit groups of the input
bytes mapped through the URL-safe alphabet, with no `=` padding. -/
def base64RawURLEncode : List Nat → List Char
  | [] => []
  | [b1] =>
      [b64Char (b1 / 4), b64Char (b1 % 4 * 16)]
  | [b1, b2] =>
      [b64Char (b1 / 4), b64Char (b1 % 4 * 16 + b2 / 16), b64Char (b2 % 16 * 4)]
  | b1 :: b2 :: b3 :: rest =>
      b64Char (b1 / 4) :: b64Char (b1 % 4 * 16 + b2 / 16) ::
        b64Char (b2 % 16 * 4 + b3 / 64) :: b64Char (b3 % 64) ::
        base64RawURLEncode rest

/-- `make([]byte, 32)`: the token buffer is 32 bytes (256 bits). -/
def tokenByteCount : Nat := 32

/-- `randToken` fills a 32-byte buffer from `crypto/rand` and encodes it
with `base64.RawURLEncoding`.  An entropy error is wrapped and returned. -/
def randToken (randRead : Nat → Except String (List Nat)) :
    Except DBErr String :=
  match randRead tokenByteCount with
  | .error e => .error (.wrapped "Failed to generate randomness" (.raw e))
  | .ok bytes => .ok (String.mk (base64RawURLEncode bytes))

/-- `NewSession` builds a fresh session: token from `randToken` (a token
failure is wrapped and returned), `ID` from the process-wide session ID
generator (declared outside this file; modelled as the `newID` argument),
`Deadline = time.Now().Add(ttl).UnixNano()` with `now` that clock read. -/
def NewSession (randRead : Nat → Except String (List Nat)) (newID : Int)
    (username userAgent : String) (now ttl : Int) : Except DBErr Session :=
  match randToken randRead with
  | .error e => .error (.wrapped "Failed to generate a token" e)
  | .ok t =>
    .ok { ID := newID, Username := username, AuthToken := t,
          Deadline := now + ttl, UserAgent := userAgent }

/-- Modelled from the spec: `VerifyPassword` (declared in another file of
the repository) verifies a password against the stored salted hash and
propagates failure as `InvalidPassword` (spec sections 4.4 and 7).  The
hash storage format is an explicit non-goal of the spec, so the stored
hash is modelled as the password itself. -/
def VerifyPassword (passhash pass : String) : Except DBErr Unit :=
  if passhash == pass then .ok () else .error ErrInvalidPassword

/-- The durable state the authentication flows touch: the `sessions`
table, the `users` table as `(username, passhash)` rows, and the invite
tokens as `(token, remaining uses)` rows. -/
structure DBState where
  sessions : List Session
  users : List (String × String)
  tokens : List (String × Nat)
  deriving Repr, DecidableEq

/-- `(*Database).Signin`: one transaction that looks up the password hash
(no row yields `ErrInvalidPassword`), verifies the password, builds a new
session with the configured token lifespan, and inserts it (triggering the
sweep).  On any error the deferred rollback discards the transaction, so
only the success case carries a new state.  Clock reads: `now0` inside
`NewSession`, `now1` the read `insert` hands the sweeper, `clockNow2` the
sweeper's own read. -/
def Signin (st : DBState) (user pass UA : String)
    (randRead : Nat → Except String (List Nat)) (newID : Int)
    (now0 now1 clockNow2 tokenLifespan : Int) (sweepErr : Option String) :
    Except DBErr (Session × DBState) :=
  match st.users.find? (fun u => u.1 == user) with
  | none => .error ErrInvalidPassword
  | some row =>
    match VerifyPassword row.2 pass with
    | .error e => .error e
    | .ok _ =>
      match NewSession randRead newID user UA now0 tokenLifespan with
      | .error e => .error e
      | .ok s =>
        match s.insert st.sessions sweepErr now1 clockNow2 with
        | .error e => .error e
        | .ok sessions2 => .ok (s, { st with sessions := sessions2 })

/-- Modelled from the spec: `useToken` (declared in another file of the
repository) atomically consumes an invite token inside the transaction —
unknown or exhausted tokens fail with `InvalidToken`, otherwise the
remaining-use count is decremented (spec section 4.4). -/
def useToken (tokens : List (String × Nat)) (token : String) :
    Except DBErr (List (String × Nat)) :=
  match tokens.find? (fun t => t.1 == token) with
  | none => .error ErrInvalidToken
  | some row =>
    if row.2 == 0 then .error ErrInvalidToken
    else .ok (tokens.map fun t => if t.1 == token then (t.1, t.2 - 1) else t)

/-- A `users` table row as the signup flow creates it. -/
structure User where
  Username : String
  Passhash : String
  Permission : Int
  deriving Repr, DecidableEq

/-- Modelled from the spec: the default permission tier given to new
accounts (spec section 4.4). -/
def PermissionNormal : Int := 0

/-- Modelled from the spec: `NewUser` (declared in another file of the
repository) builds a user record with the default permission tier; the
password-hash format is out of scope, so the hash is the password. -/
def NewUser (username pass : String) (perm : Int) : Except DBErr User :=
  .ok { Username := username, Passhash := pass, Permission := perm }

/-- Modelled from the spec: `(*User).insert` (declared in another file of
the repository) inserts the user row and fails with `UsernameTaken` on a
username uniqueness violation (spec section 4.4). -/
def User.insert (u : User) (users : List (String × String)) :
    Except DBErr (List (String × String)) :=
  if users.any (fun r => r.1 == u.Username) then .error ErrUsernameTaken
  else .ok (users ++ [(u.Username, u.Passhash)])

/-- `(*Database).Signup`: one transaction that consumes the invite token,
creates the user row, then builds and inserts a session exactly as in
`Signin`.  Any error hits the deferred rollback, so only success carries
a new state. -/
def Signup (st : DBState) (user pass token UA : String)
    (randRead : Nat → Except String (List Nat)) (newID : Int)
    (now0 now1 clockNow2 tokenLifespan : Int) (sweepErr : Option String) :
    Except DBErr (Session × DBState) :=
  match useToken st.tokens token with
  | .error e => .error e
  | .ok tokens2 =>
    match NewUser user pass PermissionNormal with
    | .error e => .error e
    | .ok u =>
      match u.insert st.users with
      | .error e => .error e
      | .ok users2 =>
        match NewSession randRead newID user UA now0 tokenLifespan with
        | .error e => .error e
        | .ok s =>
          match s.insert st.sessions sweepErr now1 clockNow2 with
          | .error e => .error e
          | .ok sessions2 => .ok (s, ⟨sessions2, users2, tokens2⟩)

/-- The database state visible after a `Signup` call returns: the
transaction's state when it commits, the untouched original state when
the deferred rollback fires on the error path. -/
def signupCommitted (st : DBState) (user pass token UA : String)
    (randRead : Nat → Except String (List Nat)) (newID : Int)
    (now0 now1 clockNow2 tokenLifespan : Int) (sweepErr : Option String) :
    DBState :=
  match Signup st user pass token UA randRead newID now0 now1 clockNow2
      tokenLifespan sweepErr with
  | .ok out => out.2
  | .error _ => st

/-- `(*Transaction).DeleteSessionID`: `DELETE FROM sessions WHERE id = ?
AND username = ?` with the calling transaction's own session username
(`d.session.Username`, here `selfUsername`).  `execChanged` (declared in
another file of the repository) reports whether any row was affected,
modelled by comparing row counts; an unchanged table yields
`ErrSessionNotFound`.  The second component is the table after the call. -/
def DeleteSessionID (sessions : List Session) (selfUsername : String)
    (id : Int) : Except DBErr Unit × List Session :=
  let remaining := sessions.filter fun r =>
    !(r.ID == id && r.Username == selfUsername)
  if remaining.length == sessions.length then
    (.error ErrSessionNotFound, sessions)
  else
    (.ok (), remaining)

/-- A character acceptable in a cookie value and URL without escaping:
the URL-safe base64 alphabet ranges. -/
def isURLSafeChar (c : Char) : Bool :=
  ('A' ≤ c && c ≤ 'Z') || ('a' ≤ c && c ≤ 'z') ||
    ('0' ≤ c && c ≤ '9') || c == '-' || c == '_'

/-- `find?` returns the unique element satisfying the predicate. -/
theorem find?_eq_some_of_unique {α : Type} {p : α → Bool} {l : List α} {a : α}
    (ha : a ∈ l) (hpa : p a = true)
    (huniq : ∀ b ∈ l, p b = true → b = a) :
    l.find? p = some a := by
  induction l with
  | nil => cases ha
  | cons x xs ih =>
    by_cases hp : p x = true
    · have hxa : x = a := huniq x (List.mem_cons_self x xs) hp
      subst hxa
      exact List.find?_cons_of_pos xs hp
    · rw [List.find?_cons_of_neg xs (by simpa using hp)]
      rcases List.mem_cons.mp ha with h | h
      · exact absurd (h ▸ hpa) hp
      · exact ih h fun b hb hpb => huniq b (List.mem_cons_of_mem x hb) hpb

/-- The UPDATE of `QuerySession` touches only the deadline column. -/
theorem renewMap_authToken (d : Int) (tok : String) (r : Session) :
    ((if r.AuthToken == tok then { r with Deadline := d } else r :
        Session)).AuthToken = r.AuthToken := by
  by_cases h : r.AuthToken == tok <;> simp [h]

/-- C1: resolving a stored session whose deadline has not passed returns
it with deadline `now + renewTTL` — computed from the clock reading at
resolution, not from the previous deadline — and persists that deadline
in the table, where the lookup now finds the renewed row. -/
theorem querySession_renews (sessions : List Session) (token : String)
    (now renewTTL : Int) (s : Session)
    (hfind : sessions.find? (fun r => r.AuthToken == token) = some s)
    (hvalid : now ≤ s.Deadline) :
    ∃ s2 sessions2,
      QuerySession sessions token now renewTTL = (.ok s2, sessions2) ∧
      s2.Deadline = now + renewTTL ∧
      s2.ID = s.ID ∧ s2.Username = s.Username ∧
      s2.AuthToken = s.AuthToken ∧ s2.UserAgent = s.UserAgent ∧
      sessions2.find? (fun r => r.AuthToken == token) = some s2 := by
  have hnot : ¬ now > s.Deadline := not_lt.mpr hvalid
  refine ⟨{ s with Deadline := now + renewTTL },
    sessions.map fun r =>
      if r.AuthToken == s.AuthToken then { r with Deadline := now + renewTTL }
      else r,
    ?_, rfl, rfl, rfl, rfl, rfl, ?_⟩
  · unfold QuerySession
    rw [hfind]
    simp [hnot]
  · rw [List.find?_map]
    have hcongr : ((fun r : Session => r.AuthToken == token) ∘ fun r : Session =>
        if r.AuthToken == s.AuthToken then { r with Deadline := now + renewTTL }
        else r) = fun r : Session => r.AuthToken == token := by
      funext r
      simp only [Function.comp_apply]
      rw [renewMap_authToken]
    rw [hcongr, hfind]
    simp

/-- C2: a token matching no stored row fails with the same
`ErrSessionExpired` kind used for deadline-passed sessions — never the
distinct `ErrSessionNotFound` kind — and leaves the table untouched. -/
theorem querySession_unknownToken (sessions : List Session) (token : String)
    (now renewTTL : Int)
    (hnone : ∀ r ∈ sessions, r.AuthToken ≠ token) :
    QuerySession sessions token now renewTTL
        = (.error ErrSessionExpired, sessions) ∧
      ErrSessionExpired ≠ ErrSessionNotFound := by
  have hfind : sessions.find? (fun r => r.AuthToken == token) = none := by
    rw [List.find?_eq_none]
    intro r hr
    simpa using hnone r hr
  refine ⟨?_, by decide⟩
  unfold QuerySession
  rw [hfind]

/-- C4: with a matching row, resolution succeeds exactly when
`now ≤ deadline` (the boundary instant `now = deadline` included); once
`now > deadline` it fails with `ErrSessionExpired` and returns the table
unchanged — the expired row is neither deleted nor modified. -/
theorem querySession_valid_iff (sessions : List Session) (token : String)
    (now renewTTL : Int) (s : Session)
    (hfind : sessions.find? (fun r => r.AuthToken == token) = some s) :
    ((∃ s2, (QuerySession sessions token now renewTTL).1 = .ok s2)
        ↔ now ≤ s.Deadline) ∧
      (now > s.Deadline →
        QuerySession sessions token now renewTTL
          = (.error ErrSessionExpired, sessions)) := by
  constructor
  · constructor
    · rintro ⟨s2, h2⟩
      by_contra hlt
      push_neg at hlt
      unfold QuerySession at h2
      rw [hfind] at h2
      simp [hlt] at h2
    · intro hle
      unfold QuerySession
      rw [hfind]
      simp [not_lt.mpr hle]
  · intro hgt
    unfold QuerySession
    rw [hfind]
    simp [hgt]

/-- C1 witness: a session with deadline 100 resolved at time 50 with
renew TTL 60 is returned and persisted with deadline 110. -/
theorem querySession_renews_witness :
    ∃ s2 sessions2,
      QuerySession [⟨1, "alice", "tok", 100, "ua"⟩] "tok" 50 60
          = (.ok s2, sessions2) ∧
        s2.Deadline = 50 + 60 ∧
        s2.ID = 1 ∧ s2.Username = "alice" ∧
        s2.AuthToken = "tok" ∧ s2.UserAgent = "ua" ∧
        sessions2.find? (fun r => r.AuthToken == "tok") = some s2 :=
  querySession_renews [⟨1, "alice", "tok", 100, "ua"⟩] "tok" 50 60
    ⟨1, "alice", "tok", 100, "ua"⟩ (by decide) (by decide)

/-- C2 witness: a token stored nowhere resolves to `ErrSessionExpired`. -/
theorem querySession_unknownToken_witness :
    QuerySession [⟨1, "alice", "tok", 100, "ua"⟩] "forged" 50 60
        = (.error ErrSessionExpired, [⟨1, "alice", "tok", 100, "ua"⟩]) ∧
      ErrSessionExpired ≠ ErrSessionNotFound :=
  querySession_unknownToken [⟨1, "alice", "tok", 100, "ua"⟩] "forged" 50 60
    (by decide)

/-- C4 witness: at the boundary instant `now = deadline` the session
still resolves. -/
theorem querySession_valid_iff_witness :
    ((∃ s2, (QuerySession [⟨1, "alice", "tok", 100, "ua"⟩] "tok" 100 60).1
          = .ok s2) ↔ (100 : Int) ≤ 100) ∧
      ((100 : Int) > 100 →
        QuerySession [⟨1, "alice", "tok", 100, "ua"⟩] "tok" 100 60
          = (.error ErrSessionExpired, [⟨1, "alice", "tok", 100, "ua"⟩])) :=
  querySession_valid_iff [⟨1, "alice", "tok", 100, "ua"⟩] "tok" 100 60
    ⟨1, "alice", "tok", 100, "ua"⟩ (by decide)

/-- An insert whose sweep DELETE fails never succeeds. -/
theorem insert_sweepFail_ne_ok (s : Session) (l : List Session)
    (msg : String) (a b : Int) (out : List Session) :
    s.insert l (some msg) a b ≠ .ok out := by
  unfold Session.insert cleanupSession
  by_cases h : l.any (fun r => r.ID == s.ID || r.AuthToken == s.AuthToken) <;>
    simp [h]

/-- C5: `insert` persists the new row and, immediately after and in the
same transaction, runs the sweeper: the resulting table holds exactly the
old rows and the new one whose deadlines are not strictly below the
sweep's clock reading.  A failure of the sweep's DELETE is returned by
`insert` (wrapped, not ignored), and the enclosing `Signin` transaction
can then never commit. -/
theorem insert_sweeps (s : Session) (sessions : List Session)
    (now1 clockNow2 : Int)
    (hfresh : sessions.any
      (fun r => r.ID == s.ID || r.AuthToken == s.AuthToken) = false) :
    (∃ sessions2, s.insert sessions none now1 clockNow2 = .ok sessions2 ∧
        ∀ r, r ∈ sessions2 ↔ (r ∈ sessions ∨ r = s) ∧ clockNow2 ≤ r.Deadline) ∧
      (∀ msg, s.insert sessions (some msg) now1 clockNow2
          = .error (.wrapped "Faield to cleanup expired sessions" (.raw msg))) ∧
      (∀ msg st user pass UA randRead newID now0 ttl out,
        Signin st user pass UA randRead newID now0 now1 clockNow2 ttl
          (some msg) ≠ .ok out) := by
  refine ⟨⟨(sessions ++ [s]).filter fun r => !(r.Deadline < clockNow2),
      ?_, ?_⟩, ?_, ?_⟩
  · unfold Session.insert cleanupSession
    simp [hfresh]
  · intro r
    simp only [List.mem_filter, List.mem_append, List.mem_singleton,
      Bool.not_eq_true', decide_eq_false_iff_not, not_lt]
  · intro msg
    unfold Session.insert cleanupSession
    simp [hfresh]
  · intro msg st user pass UA randRead newID now0 ttl out hok
    unfold Signin at hok
    cases hfu : st.users.find? (fun u => u.1 == user) with
    | none => simp [hfu] at hok
    | some row =>
      simp only [hfu] at hok
      cases hv : VerifyPassword row.2 pass with
      | error e => simp [hv] at hok
      | ok u =>
        simp only [hv] at hok
        cases hn : NewSession randRead newID user UA now0 ttl with
        | error e => simp [hn] at hok
        | ok s2 =>
          simp only [hn] at hok
          cases hi : s2.insert st.sessions (some msg) now1 clockNow2 with
          | error e => simp [hi] at hok
          | ok l2 =>
            exact insert_sweepFail_ne_ok s2 st.sessions msg now1 clockNow2 l2 hi

/-- C5 witness: inserting a live session sweeps an expired row, keeps the
live ones, and a failing sweep propagates. -/
theorem insert_sweeps_witness :
    (∃ sessions2,
        Session.insert ⟨2, "bob", "t2", 50, "ua"⟩
            [⟨1, "alice", "t1", 10, "ua"⟩] none 40 40 = .ok sessions2 ∧
        ∀ r, r ∈ sessions2 ↔
          (r ∈ [⟨1, "alice", "t1", 10, "ua"⟩] ∨
            r = (⟨2, "bob", "t2", 50, "ua"⟩ : Session)) ∧
          (40 : Int) ≤ r.Deadline) ∧
      (∀ msg, Session.insert ⟨2, "bob", "t2", 50, "ua"⟩
          [⟨1, "alice", "t1", 10, "ua"⟩] (some msg) 40 40
          = .error (.wrapped "Faield to cleanup expired sessions" (.raw msg))) ∧
      (∀ msg st user pass UA randRead newID now0 ttl out,
        Signin st user pass UA randRead newID now0 40 40 ttl
          (some msg) ≠ .ok out) :=
  insert_sweeps ⟨2, "bob", "t2", 50, "ua"⟩ [⟨1, "alice", "t1", 10, "ua"⟩]
    40 40 (by decide)

/-- C6: signin with a username that has no user row and signin with an
existing username but a wrong password both fail with the identical
`ErrInvalidPassword` value. -/
theorem signin_indistinguishable (st : DBState) (user pass UA : String)
    (randRead : Nat → Except String (List Nat)) (newID : Int)
    (now0 now1 clockNow2 ttl : Int) (sweepErr : Option String) :
    (st.users.find? (fun u => u.1 == user) = none →
        Signin st user pass UA randRead newID now0 now1 clockNow2 ttl sweepErr
          = .error ErrInvalidPassword) ∧
      (∀ ph, st.users.find? (fun u => u.1 == user) = some (user, ph) →
        ph ≠ pass →
        Signin st user pass UA randRead newID now0 now1 clockNow2 ttl sweepErr
          = .error ErrInvalidPassword) := by
  constructor
  · intro hnone
    unfold Signin
    simp [hnone]
  · intro ph hfound hne
    unfold Signin
    simp only [hfound]
    unfold VerifyPassword
    simp [beq_eq_false_iff_ne.mpr hne]

/-- C6 witness: an unknown username and a known username with a wrong
password both yield `ErrInvalidPassword`. -/
theorem signin_indistinguishable_witness :
    Signin ⟨[], [], []⟩ "alice" "pw" "ua"
        (fun n => .ok (List.replicate n 0)) 1 0 0 0 3600 none
        = .error ErrInvalidPassword ∧
      Signin ⟨[], [("bob", "secret")], []⟩ "bob" "wrong" "ua"
        (fun n => .ok (List.replicate n 0)) 1 0 0 0 3600 none
        = .error ErrInvalidPassword :=
  ⟨(signin_indistinguishable ⟨[], [], []⟩ "alice" "pw" "ua"
      (fun n => .ok (List.replicate n 0)) 1 0 0 0 3600 none).1 (by decide),
    (signin_indistinguishable ⟨[], [("bob", "secret")], []⟩ "bob" "wrong" "ua"
      (fun n => .ok (List.replicate n 0)) 1 0 0 0 3600 none).2 "secret"
      (by decide) (by decide)⟩

/-- C7: `DeleteSessionID` deletes a row only when both the id and the
calling session's username match: when no row carries the given id with
the caller's username — another user's id, or a nonexistent one — it
fails with `ErrSessionNotFound` and leaves the whole table (in particular
the other user's row) intact, and in general any row it removes had both
the id and the caller's username. -/
theorem deleteSessionID_ownOnly (sessions : List Session)
    (selfUsername : String) (id : Int)
    (hmiss : ∀ r ∈ sessions, ¬(r.ID = id ∧ r.Username = selfUsername)) :
    DeleteSessionID sessions selfUsername id
        = (.error ErrSessionNotFound, sessions) ∧
      (∀ l self i r, r ∈ l → r ∉ (DeleteSessionID l self i).2 →
        r.ID = i ∧ r.Username = self) := by
  constructor
  · have hall : ∀ r ∈ sessions,
        (!(r.ID == id && r.Username == selfUsername)) = true := by
      intro r hr
      by_cases h1 : r.ID = id
      · have h2 : r.Username ≠ selfUsername := fun h2 => hmiss r hr ⟨h1, h2⟩
        simp [h1, h2]
      · simp [h1]
    have hfilter : sessions.filter
        (fun r => !(r.ID == id && r.Username == selfUsername)) = sessions :=
      List.filter_eq_self.mpr hall
    unfold DeleteSessionID
    simp only [hfilter, beq_self_eq_true, if_true]
  · intro l self i r hrl hrno
    unfold DeleteSessionID at hrno
    by_cases hc : ((l.filter fun r =>
        !(r.ID == i && r.Username == self)).length == l.length) = true
    · simp only [hc, if_true] at hrno
      exact absurd hrl hrno
    · simp only [Bool.not_eq_true] at hc
      simp only [hc, Bool.false_eq_true, if_false] at hrno
      by_contra hnot
      apply hrno
      rw [List.mem_filter]
      refine ⟨hrl, ?_⟩
      by_cases h1 : r.ID = i
      · have h2 : r.Username ≠ self := fun h2 => hnot ⟨h1, h2⟩
        simp [h1, h2]
      · simp [h1]

/-- C7 witness: deleting bob's session id from alice's transaction fails
with `ErrSessionNotFound` and keeps bob's row. -/
theorem deleteSessionID_ownOnly_witness :
    DeleteSessionID [⟨7, "bob", "t2", 50, "ua"⟩] "alice" 7
        = (.error ErrSessionNotFound, [⟨7, "bob", "t2", 50, "ua"⟩]) ∧
      (∀ l self i r, r ∈ l → r ∉ (DeleteSessionID l self i).2 →
        r.ID = i ∧ r.Username = self) :=
  deleteSessionID_ownOnly [⟨7, "bob", "t2", 50, "ua"⟩] "alice" 7 (by decide)

/-- C3: signup with an already-consumed invite token fails with
`ErrInvalidToken`, and the committed state is the original one — the
token's remaining-use count, the user table and the session table are all
untouched; in general any failing signup commits nothing, because every
step shares the one transaction covered by the deferred rollback. -/
theorem signup_atomic (st : DBState) (user pass token UA : String)
    (randRead : Nat → Except String (List Nat)) (newID : Int)
    (now0 now1 clockNow2 ttl : Int) (sweepErr : Option String)
    (hcons : st.tokens.find? (fun t => t.1 == token) = some (token, 0)) :
    Signup st user pass token UA randRead newID now0 now1 clockNow2 ttl
        sweepErr = .error ErrInvalidToken ∧
      signupCommitted st user pass token UA randRead newID now0 now1 clockNow2
        ttl sweepErr = st ∧
      (∀ st2 user2 pass2 token2 UA2 randRead2 newID2 a0 a1 a2 ttl2 se2 e,
        Signup st2 user2 pass2 token2 UA2 randRead2 newID2 a0 a1 a2 ttl2 se2
          = .error e →
        signupCommitted st2 user2 pass2 token2 UA2 randRead2 newID2 a0 a1 a2
          ttl2 se2 = st2) := by
  have h1 : Signup st user pass token UA randRead newID now0 now1 clockNow2
      ttl sweepErr = .error ErrInvalidToken := by
    unfold Signup useToken
    rw [hcons]
    simp
  refine ⟨h1, ?_, ?_⟩
  · unfold signupCommitted
    rw [h1]
  · intro st2 user2 pass2 token2 UA2 randRead2 newID2 a0 a1 a2 ttl2 se2 e he
    unfold signupCommitted
    rw [he]

/-- C3 witness: an invite token with zero remaining uses is rejected and
the database is unchanged. -/
theorem signup_atomic_witness :
    Signup ⟨[], [], [("inv", 0)]⟩ "carol" "pw" "inv" "ua"
        (fun n => .ok (List.replicate n 0)) 1 0 0 0 3600 none
        = .error ErrInvalidToken ∧
      signupCommitted ⟨[], [], [("inv", 0)]⟩ "carol" "pw" "inv" "ua"
        (fun n => .ok (List.replicate n 0)) 1 0 0 0 3600 none
        = ⟨[], [], [("inv", 0)]⟩ ∧
      (∀ st2 user2 pass2 token2 UA2 randRead2 newID2 a0 a1 a2 ttl2 se2 e,
        Signup st2 user2 pass2 token2 UA2 randRead2 newID2 a0 a1 a2 ttl2 se2
          = .error e →
        signupCommitted st2 user2 pass2 token2 UA2 randRead2 newID2 a0 a1 a2
          ttl2 se2 = st2) :=
  signup_atomic ⟨[], [], [("inv", 0)]⟩ "carol" "pw" "inv" "ua"
    (fun n => .ok (List.replicate n 0)) 1 0 0 0 3600 none (by decide)

/-- Every base64 digit is drawn from the URL-safe alphabet. -/
theorem b64Char_mem (n : Nat) : b64Char n ∈ b64urlAlphabet := by
  unfold b64Char
  rcases Nat.lt_or_ge n b64urlAlphabet.length with h | h
  · rw [List.getD_eq_getElem _ _ h]
    exact List.getElem_mem h
  · rw [List.getD_eq_default _ _ h]
    decide

/-- Every character of the URL-safe alphabet is URL-safe and is not the
padding character. -/
theorem urlSafe_of_mem : ∀ c ∈ b64urlAlphabet, isURLSafeChar c = true ∧ c ≠ '=' := by
  decide

/-- Every character the encoder emits is a base64 digit. -/
theorem base64_chars (bytes : List Nat) :
    ∀ c ∈ base64RawURLEncode bytes, ∃ n, c = b64Char n := by
  induction bytes using base64RawURLEncode.induct with
  | case1 =>
    intro c hc
    simp [base64RawURLEncode] at hc
  | case2 b1 =>
    intro c hc
    simp only [base64RawURLEncode, List.mem_cons, List.not_mem_nil,
      or_false] at hc
    rcases hc with rfl | rfl
    · exact ⟨_, rfl⟩
    · exact ⟨_, rfl⟩
  | case3 b1 b2 =>
    intro c hc
    simp only [base64RawURLEncode, List.mem_cons, List.not_mem_nil,
      or_false] at hc
    rcases hc with rfl | rfl | rfl
    · exact ⟨_, rfl⟩
    · exact ⟨_, rfl⟩
    · exact ⟨_, rfl⟩
  | case4 b1 b2 b3 rest ih =>
    intro c hc
    simp only [base64RawURLEncode, List.mem_cons] at hc
    rcases hc with rfl | rfl | rfl | rfl | hc
    · exact ⟨_, rfl⟩
    · exact ⟨_, rfl⟩
    · exact ⟨_, rfl⟩
    · exact ⟨_, rfl⟩
    · exact ih c hc

/-- An entropy failure makes `NewSession` fail with the wrapped error. -/
theorem newSession_entropy_error (randRead : Nat → Except String (List Nat))
    (e : String) (he : randRead tokenByteCount = .error e)
    (newID : Int) (username userAgent : String) (now ttl : Int) :
    NewSession randRead newID username userAgent now ttl
      = .error (.wrapped "Failed to generate a token"
          (.wrapped "Failed to generate randomness" (.raw e))) := by
  unfold NewSession randToken
  rw [he]

/-- C8: the token generator requests 32 bytes (at least 256 bits) from
the entropy source and encodes them with the URL-safe, padding-free
alphabet; an entropy error makes `randToken` fail with the wrapped error,
makes `NewSession` fail, and makes `Signin` and `Signup` unable to
succeed — there is no fallback source. -/
theorem randToken_contract (randRead : Nat → Except String (List Nat)) :
    256 ≤ 8 * tokenByteCount ∧
      (∀ e, randRead tokenByteCount = .error e →
        randToken randRead
            = .error (.wrapped "Failed to generate randomness" (.raw e)) ∧
          (∀ newID username userAgent now ttl,
            NewSession randRead newID username userAgent now ttl
              = .error (.wrapped "Failed to generate a token"
                  (.wrapped "Failed to generate randomness" (.raw e)))) ∧
          (∀ st user pass UA newID now0 now1 clockNow2 ttl sweepErr out,
            Signin st user pass UA randRead newID now0 now1 clockNow2 ttl
              sweepErr ≠ .ok out) ∧
          (∀ st user pass token UA newID now0 now1 clockNow2 ttl sweepErr out,
            Signup st user pass token UA randRead newID now0 now1 clockNow2
              ttl sweepErr ≠ .ok out)) ∧
      (∀ bytes, randRead tokenByteCount = .ok bytes →
        ∃ tok, randToken randRead = .ok tok ∧
          ∀ c ∈ tok.data, isURLSafeChar c = true ∧ c ≠ '=') := by
  refine ⟨by decide, ?_, ?_⟩
  · intro e he
    refine ⟨?_, newSession_entropy_error randRead e he, ?_, ?_⟩
    · unfold randToken
      rw [he]
    · intro st user pass UA newID now0 now1 clockNow2 ttl sweepErr out hok
      unfold Signin at hok
      cases hfu : st.users.find? (fun u => u.1 == user) with
      | none => simp [hfu] at hok
      | some row =>
        simp only [hfu] at hok
        cases hv : VerifyPassword row.2 pass with
        | error e2 => simp [hv] at hok
        | ok u =>
          simp only [hv] at hok
          rw [newSession_entropy_error randRead e he] at hok
          simp at hok
    · intro st user pass token UA newID now0 now1 clockNow2 ttl sweepErr out hok
      unfold Signup at hok
      cases hu : useToken st.tokens token with
      | error e2 => simp [hu] at hok
      | ok tokens2 =>
        simp only [hu] at hok
        cases hui : User.insert ⟨user, pass, PermissionNormal⟩ st.users with
        | error e2 => simp [NewUser, hui] at hok
        | ok users2 =>
          simp only [NewUser, hui] at hok
          rw [newSession_entropy_error randRead e he] at hok
          simp at hok
  · intro bytes hb
    refine ⟨String.mk (base64RawURLEncode bytes), ?_, ?_⟩
    · unfold randToken
      rw [hb]
    · intro c hc
      obtain ⟨n, rfl⟩ := base64_chars bytes c hc
      exact urlSafe_of_mem _ (b64Char_mem n)

/-- C8 witness: a failing entropy source propagates; a working one yields
a URL-safe, padding-free token. -/
theorem randToken_contract_witness :
    randToken (fun _ => .error "entropy failure")
        = .error (.wrapped "Failed to generate randomness"
            (.raw "entropy failure")) ∧
      ∃ tok, randToken (fun n => .ok (List.replicate n 0)) = .ok tok ∧
        ∀ c ∈ tok.data, isURLSafeChar c = true ∧ c ≠ '=' :=
  ⟨((randToken_contract (fun _ => .error "entropy failure")).2.1
      "entropy failure" rfl).1,
    (randToken_contract (fun n => .ok (List.replicate n 0))).2.2
      (List.replicate 32 0) rfl⟩

/-- C9: a session built around a generated token and successfully
inserted is, as long as it is unexpired, returned by a lookup on that
exact token string with its `id`, `username`, `authToken` and `userAgent`
fields unchanged (only the deadline is renewed). -/
theorem insert_query_roundtrip (randRead : Nat → Except String (List Nat))
    (newID : Int) (username userAgent tok : String)
    (now0 ttl now1 clockNow2 now3 renewTTL : Int) (s : Session)
    (sessions sessions2 : List Session)
    (htok : randToken randRead = .ok tok)
    (hnew : NewSession randRead newID username userAgent now0 ttl = .ok s)
    (hins : s.insert sessions none now1 clockNow2 = .ok sessions2)
    (halive : clockNow2 ≤ s.Deadline)
    (hvalid : now3 ≤ s.Deadline) :
    ∃ s2, (QuerySession sessions2 tok now3 renewTTL).1 = .ok s2 ∧
      s2.ID = s.ID ∧ s2.Username = s.Username ∧
      s2.AuthToken = s.AuthToken ∧ s2.UserAgent = s.UserAgent := by
  have hstok : s.AuthToken = tok := by
    unfold NewSession at hnew
    rw [htok] at hnew
    injection hnew with h
    rw [← h]
  unfold Session.insert at hins
  by_cases hfresh : (sessions.any
      fun r => r.ID == s.ID || r.AuthToken == s.AuthToken) = true
  · rw [if_pos hfresh] at hins
    cases hins
  · rw [if_neg hfresh] at hins
    unfold cleanupSession at hins
    injection hins with hins
    have hf : (sessions.any
        fun r => r.ID == s.ID || r.AuthToken == s.AuthToken) = false := by
      simpa using hfresh
    have hnotok : ∀ r ∈ sessions, (r.AuthToken == tok) = false := by
      intro r hr
      have h2 := List.any_eq_false.mp hf r hr
      simp only [Bool.or_eq_true, not_or] at h2
      rw [← hstok]
      simpa using h2.2
    have hmem : s ∈ sessions2 := by
      rw [← hins, List.mem_filter]
      refine ⟨List.mem_append_right _ (List.mem_singleton_self s), ?_⟩
      simp [not_lt.mpr halive]
    have hfind : sessions2.find? (fun r => r.AuthToken == tok) = some s := by
      apply find?_eq_some_of_unique hmem
      · simp [hstok]
      · intro b hb hpb
        rw [← hins, List.mem_filter] at hb
        rcases List.mem_append.mp hb.1 with hbs | hbs
        · rw [hnotok b hbs] at hpb
          cases hpb
        · exact List.mem_singleton.mp hbs
    refine ⟨{ s with Deadline := now3 + renewTTL }, ?_, rfl, rfl, rfl, rfl⟩
    unfold QuerySession
    rw [hfind]
    simp [not_lt.mpr hvalid]

/-- C9 witness: a zero-byte-entropy token is generated, stored and looked
up again with all fields but the deadline intact. -/
theorem insert_query_roundtrip_witness :
    ∃ s2, (QuerySession
        ((List.replicate 32 0 |> base64RawURLEncode |> String.mk |>
          fun t => [⟨5, "erin", t, 100, "ua"⟩]) : List Session)
        (String.mk (base64RawURLEncode (List.replicate 32 0))) 80 60).1
          = .ok s2 ∧
      s2.ID = (5 : Int) ∧ s2.Username = "erin" ∧
      s2.AuthToken = String.mk (base64RawURLEncode (List.replicate 32 0)) ∧
      s2.UserAgent = "ua" := by
  have h := insert_query_roundtrip (fun n => .ok (List.replicate n 0)) 5
    "erin" "ua" (String.mk (base64RawURLEncode (List.replicate 32 0)))
    40 60 70 70 80 60
    ⟨5, "erin", String.mk (base64RawURLEncode (List.replicate 32 0)), 100, "ua"⟩
    [] [⟨5, "erin", String.mk (base64RawURLEncode (List.replicate 32 0)), 100, "ua"⟩]
    rfl rfl rfl (by decide) (by decide)
  exact h

/-- C10: whenever the fresh session's deadline `now0 + ttl` is strictly
below the sweep's own clock reading (any `ttl ≤ 0` once the clock has
advanced, in particular any negative `ttl`), `Signin` succeeds and
returns the newly created session even though the sweep running inside
the same transaction — which re-reads the clock instead of using the
timestamp `insert` passes it — has already deleted that session's row,
so the returned auth token can never be resolved afterward. -/
theorem signin_returns_swept_session (st : DBState) (user pass UA : String)
    (randRead : Nat → Except String (List Nat)) (newID : Int)
    (now0 now1 clockNow2 ttl : Int) (tok : String)
    (huser : st.users.find? (fun u => u.1 == user) = some (user, pass))
    (htok : randToken randRead = .ok tok)
    (hfresh : (st.sessions.any
      fun r => r.ID == newID || r.AuthToken == tok) = false)
    (hstale : now0 + ttl < clockNow2) :
    ∃ s st2,
      Signin st user pass UA randRead newID now0 now1 clockNow2 ttl none
          = .ok (s, st2) ∧
        s.AuthToken = tok ∧ s.Deadline = now0 + ttl ∧
        s ∉ st2.sessions ∧
        (∀ now3 renewTTL, QuerySession st2.sessions tok now3 renewTTL
          = (.error ErrSessionExpired, st2.sessions)) ∧
        (∀ execErr l a b t,
          cleanupSession execErr l a t = cleanupSession execErr l b t) := by
  have hnew : NewSession randRead newID user UA now0 ttl
      = .ok ⟨newID, user, tok, now0 + ttl, UA⟩ := by
    unfold NewSession
    rw [htok]
  refine ⟨⟨newID, user, tok, now0 + ttl, UA⟩,
    ⟨(st.sessions ++ [(⟨newID, user, tok, now0 + ttl, UA⟩ : Session)]).filter
        (fun r => !(r.Deadline < clockNow2)), st.users, st.tokens⟩,
    ?_, rfl, rfl, ?_, ?_, ?_⟩
  · unfold Signin
    rw [huser]
    unfold VerifyPassword
    simp only [beq_self_eq_true, if_true]
    rw [hnew]
    unfold Session.insert cleanupSession
    simp only [hfresh, Bool.false_eq_true, if_false]
  · intro hmem
    rw [List.mem_filter] at hmem
    have h2 := hmem.2
    simp [hstale] at h2
  · have hnone : ∀ r ∈ (st.sessions ++
        [(⟨newID, user, tok, now0 + ttl, UA⟩ : Session)]).filter
          (fun r => !(r.Deadline < clockNow2)),
        ¬((r.AuthToken == tok) = true) := by
      intro r hr
      rw [List.mem_filter] at hr
      rcases List.mem_append.mp hr.1 with h | h
      · have h2 := List.any_eq_false.mp hfresh r h
        simp only [Bool.or_eq_true, not_or] at h2
        exact h2.2
      · rw [List.mem_singleton] at h
        subst h
        exfalso
        have h2 := hr.2
        simp [hstale] at h2
    intro now3 renewTTL
    unfold QuerySession
    rw [List.find?_eq_none.mpr hnone]
  · intro execErr l a b t
    rfl

/-- C10 witness: with TTL −1 and user dave, signin commits a state whose
only trace of the new session is its absence — the returned token
resolves to `ErrSessionExpired`. -/
theorem signin_returns_swept_session_witness :
    ∃ s st2,
      Signin ⟨[], [("dave", "pw")], []⟩ "dave" "pw" "ua"
          (fun n => .ok (List.replicate n 0)) 1 0 0 0 (-1) none
          = .ok (s, st2) ∧
        s.AuthToken = String.mk (base64RawURLEncode (List.replicate 32 0)) ∧
        s.Deadline = 0 + (-1) ∧
        s ∉ st2.sessions ∧
        (∀ now3 renewTTL, QuerySession st2.sessions
          (String.mk (base64RawURLEncode (List.replicate 32 0))) now3 renewTTL
          = (.error ErrSessionExpired, st2.sessions)) ∧
        (∀ execErr l a b t,
          cleanupSession execErr l a t = cleanupSession execErr l b t) :=
  signin_returns_swept_session ⟨[], [("dave", "pw")], []⟩ "dave" "pw" "ua"
    (fun n => .ok (List.replicate n 0)) 1 0 0 0 (-1)
    (String.mk (base64RawURLEncode (List.replicate 32 0)))
    rfl rfl rfl (by decide)

end Smolboard
